import Mathlib

/-!
Verification development for the fpl-weekly build pipeline (src/build.js).

The data-transformation core of `build.js` is shallowly embedded here:
* JavaScript arrays become `List`, timestamps become epoch milliseconds (`Int`),
  `undefined`/`null` results become `Option`.
* `Array.prototype.sort` is ECMAScript-stable; it is embedded as `List.mergeSort`
  with the boolean relation `le a b := comparator a b ≤ 0` derived from the
  source's comparator.
* `parseFloat` is embedded as a partial decimal parser into `ℚ`, with `none`
  playing the role of `NaN`.
* The machine-local calendar-date truncation `new Date(ms).toDateString()` is
  embedded as a floor division of the offset-shifted timestamp by one day;
  the UTC offset of the executing machine is an explicit parameter `off`
  (minutes east of UTC), since `toDateString` depends on it.
-/

/-- A gameweek ("event" in the provider payload): fields of the raw object that
`build.js` reads (`is_next`, `is_current`, `finished`, `id`, `name`). -/
structure Gameweek where
  id : Int
  name : String
  is_next : Bool
  is_current : Bool
  finished : Bool
deriving DecidableEq, Repr

/-- A team: `build.js` reads `id` and `short_name`. -/
structure Team where
  id : Int
  short_name : String
deriving DecidableEq, Repr

/-- A fixture: `event` is the gameweek id and may be null (`none`);
`kickoff_time` is the kickoff instant in epoch milliseconds. -/
structure Fixture where
  id : Int
  event : Option Int
  kickoff_time : Int
  team_h : Int
  team_a : Int
deriving DecidableEq, Repr

/-- A player ("element" in the provider payload): exactly the fields that the
ranking code of `build.js` reads.  `selected_by_percent` and `form` are
decimal-as-string fields. -/
structure Player where
  id : Int
  web_name : String
  team : Int
  element_type : Int
  status : String
  news : String
  selected_by_percent : String
  form : String
  transfers_in_event : Int
  transfers_out_event : Int
  cost_change_event : Int
deriving DecidableEq, Repr

/-- The immutable snapshot handed to `buildHTML`: `bootstrap.elements`,
`bootstrap.teams`, `bootstrap.events` and the fixture list. -/
structure Snapshot where
  players : List Player
  teams : List Team
  events : List Gameweek
  fixtures : List Fixture
deriving DecidableEq, Repr

/-- Value of a digit string, most significant first (`""` gives 0, as
`parseFloat` contributes 0 for an absent digit group). -/
def digitsToNat (ds : List Char) : Nat :=
  ds.foldl (fun n c => 10 * n + (c.toNat - 48)) 0

/-- Mantissa part of the `parseFloat` embedding: integer digits, optionally a
point followed by fraction digits; trailing garbage is ignored, and if no digit
at all is found the result is `none` (NaN).  The parsed value is kept as the
scaled integer numerator together with the count of fraction digits, so the
represented number is `numerator / 10 ^ count`. -/
def parseDecCore (cs : List Char) (sgn : Int) : Option (Int × Nat) :=
  let ip := cs.takeWhile Char.isDigit
  let rest := cs.dropWhile Char.isDigit
  let fp :=
    match rest with
    | '.' :: r => r.takeWhile Char.isDigit
    | _ => []
  if ip.isEmpty && fp.isEmpty then none
  else some (sgn * ((digitsToNat ip : Int) * 10 ^ fp.length + (digitsToNat fp : Int)), fp.length)

/-- Digit-level part of the `parseFloat` embedding: optional leading
whitespace and sign, then decimal digits with an optional fractional part;
any trailing garbage is ignored.  `none` models `NaN` (no digits at all).
Exponents and `Infinity` are not modelled — the provider's decimal-as-string
fields never carry them. -/
def parseDec (s : String) : Option (Int × Nat) :=
  match s.data.dropWhile (fun c => c.isWhitespace) with
  | '-' :: r => parseDecCore r (-1)
  | '+' :: r => parseDecCore r 1
  | cs => parseDecCore cs 1

/-- Embedding of JavaScript `parseFloat` on the decimal-as-string snapshot
fields: the exact rational value of the parsed decimal (these short decimal
strings are represented exactly by the IEEE doubles `parseFloat` returns, and
the comparisons the pipeline performs on them are exact). -/
def parseFloat (s : String) : Option ℚ :=
  (parseDec s).map (fun p => (p.1 : ℚ) / 10 ^ p.2)

/-- `gtQ x q` embeds the JavaScript comparison `parseFloat(s) > q`:
false when the parse produced `NaN` (`none`), since every comparison with
`NaN` is false. -/
def gtQ (x : Option ℚ) (q : ℚ) : Bool :=
  match x with
  | some v => decide (q < v)
  | none => false

/-- `getCurrentGameweek` from `build.js` (lines 27-41): first gameweek with
`is_next`, else first with `is_current`, else first unfinished, else the last
element; on an empty list every step misses and the result is `none`
(JavaScript `undefined`). -/
def getCurrentGameweek (events : List Gameweek) : Option Gameweek :=
  match events.find? (fun e => e.is_next) with
  | some gw => some gw
  | none =>
    match events.find? (fun e => e.is_current) with
    | some gw => some gw
    | none =>
      match events.find? (fun e => !e.finished) with
      | some gw => some gw
      | none => events.getLast?

/-- `getTeamName` from `build.js`: short name of the team with the given id,
`"???"` when absent. -/
def getTeamName (teams : List Team) (id : Int) : String :=
  match teams.find? (fun t => t.id == id) with
  | some t => t.short_name
  | none => "???"

/-- The example gameweeks of the spec's priority test: id 1 is current,
id 2 is next. -/
def gwCurrent : Gameweek := { id := 1, name := "Gameweek 1", is_next := false, is_current := true, finished := false }

def gwNext : Gameweek := { id := 2, name := "Gameweek 2", is_next := true, is_current := false, finished := false }

/-- The calendar-date key of a kickoff instant as computed by
`new Date(ms).toDateString()` in `build.js` line 119: the day number of the
instant shifted by the executing machine's UTC offset `off` (in minutes east
of UTC, a fixed offset).  Two instants get the same `toDateString` key exactly
when they fall on the same machine-local calendar day, i.e. when these day
numbers agree. -/
def dateKey (off : Int) (ms : Int) : Int :=
  (ms + off * 60000).fdiv 86400000

/-- One step of the grouping loop of `build.js` lines 118-122: push fixture
`f` onto the bucket for its date key, creating the bucket at the end when it
does not exist yet (JavaScript object keys enumerate in insertion order for
these string keys). -/
def insertFixture (off : Int) (acc : List (Int × List Fixture)) (f : Fixture) :
    List (Int × List Fixture) :=
  let d := dateKey off f.kickoff_time
  if acc.any (fun p => p.1 == d) then
    acc.map (fun p => if p.1 == d then (p.1, p.2 ++ [f]) else p)
  else
    acc ++ [(d, [f])]

/-- The `fixturesByDate` object of `build.js` before the in-group sort:
fold the fixtures in input order into date buckets. -/
def groupFixturesByDate (off : Int) (fs : List Fixture) : List (Int × List Fixture) :=
  fs.foldl (insertFixture off) []

/-- The in-group comparator of `build.js` line 126,
`(a, b) => new Date(a.kickoff_time) - new Date(b.kickoff_time)`, as the
boolean relation "comparator ≤ 0". -/
def kickLE (a b : Fixture) : Bool :=
  decide (a.kickoff_time - b.kickoff_time ≤ 0)

/-- Lines 125-127 of `build.js`: sort each day's fixtures ascending by kickoff
(ECMAScript sort is stable, embedded as `mergeSort`). -/
def sortGroups (gs : List (Int × List Fixture)) : List (Int × List Fixture) :=
  gs.map (fun p => (p.1, p.2.mergeSort kickLE))

/-- The full fixture grouper of `build.js` lines 114-127: filter to the
reference gameweek (`f.event === currentGW.id`, so null `event` is excluded),
group by machine-local calendar date in insertion order, sort within groups. -/
def fixturesByDate (off : Int) (fixtures : List Fixture) (gwId : Int) :
    List (Int × List Fixture) :=
  sortGroups (groupFixturesByDate off (fixtures.filter (fun f => f.event == some gwId)))

/-- The date keys of a list of fixtures in order of first occurrence: the key
enumeration order of the JavaScript `fixturesByDate` object. -/
def keysInOrder (ds : List Int) : List Int :=
  ds.foldl (fun acc d => if d ∈ acc then acc else acc ++ [d]) []

/-- `(a, b) => b.transfers_in_event - a.transfers_in_event` (build.js line 131)
as the relation "comparator ≤ 0". -/
def tinLE (a b : Player) : Bool :=
  decide (b.transfers_in_event - a.transfers_in_event ≤ 0)

/-- `(a, b) => b.transfers_out_event - a.transfers_out_event` (line 136). -/
def toutLE (a b : Player) : Bool :=
  decide (b.transfers_out_event - a.transfers_out_event ≤ 0)

/-- Numeric value of a decimal-as-string field as used inside the sort
comparators.  In the pipeline every list handed to a `parseFloat`-based
comparator has already passed a filter that guarantees the field parses (the
form filter needs `form > 0`, the injury filter needs `ownership > 3`), so the
default value for the `NaN` case is never exercised there; `getD 0` merely
pins it down. -/
def parseQ (s : String) : ℚ :=
  (parseFloat s).getD 0

/-- `(a, b) => parseFloat(b.form) - parseFloat(a.form)` (line 142). -/
def formLE (a b : Player) : Bool :=
  decide (parseQ b.form - parseQ a.form ≤ 0)

/-- `(a, b) => parseFloat(b.selected_by_percent) - parseFloat(a.selected_by_percent)`
(line 148). -/
def ownLE (a b : Player) : Bool :=
  decide (parseQ b.selected_by_percent - parseQ a.selected_by_percent ≤ 0)

/-- `(a, b) => b.cost_change_event - a.cost_change_event` (line 154). -/
def riserLE (a b : Player) : Bool :=
  decide (b.cost_change_event - a.cost_change_event ≤ 0)

/-- `(a, b) => a.cost_change_event - b.cost_change_event` (line 159, ascending:
most negative first). -/
def fallerLE (a b : Player) : Bool :=
  decide (a.cost_change_event - b.cost_change_event ≤ 0)

/-- Filter of the form list (line 141):
`parseFloat(p.selected_by_percent) > 2 && parseFloat(p.form) > 0`. -/
def formFilter (p : Player) : Bool :=
  gtQ (parseFloat p.selected_by_percent) 2 && gtQ (parseFloat p.form) 0

/-- Filter of the injury list (line 147):
`p.status !== 'a' && parseFloat(p.selected_by_percent) > 3`. -/
def availFilter (p : Player) : Bool :=
  (p.status != "a") && gtQ (parseFloat p.selected_by_percent) 3

/-- Filter of the price risers (line 153): `p.cost_change_event > 0`. -/
def riserFilter (p : Player) : Bool :=
  decide (0 < p.cost_change_event)

/-- Filter of the price fallers (line 158): `p.cost_change_event < 0`. -/
def fallerFilter (p : Player) : Bool :=
  decide (p.cost_change_event < 0)

/-- `topTransfersIn` (lines 130-132): sort a copy of the player list by
`transfers_in_event` descending, keep the first 5. -/
def topTransfersIn (players : List Player) : List Player :=
  (players.mergeSort tinLE).take 5

/-- `topTransfersOut` (lines 135-137). -/
def topTransfersOut (players : List Player) : List Player :=
  (players.mergeSort toutLE).take 5

/-- `formPlayers` (lines 140-143): filter, sort by form descending, first 5. -/
def formPlayers (players : List Player) : List Player :=
  ((players.filter formFilter).mergeSort formLE).take 5

/-- `injuries` (lines 146-149): non-available with ownership above 3 percent,
sorted by ownership descending, first 8. -/
def injuries (players : List Player) : List Player :=
  ((players.filter availFilter).mergeSort ownLE).take 8

/-- `priceRisers` (lines 152-155). -/
def priceRisers (players : List Player) : List Player :=
  ((players.filter riserFilter).mergeSort riserLE).take 5

/-- `priceFallers` (lines 157-160). -/
def priceFallers (players : List Player) : List Player :=
  ((players.filter fallerFilter).mergeSort fallerLE).take 5

/-- The `statusEmoji` lookup table (lines 162-168); `none` is a miss, which
the template turns into the fallback `'❓'` via `statusEmoji[p.status] || '❓'`. -/
def statusEmoji (s : String) : Option String :=
  if s = "a" then some "✅"
  else if s = "d" then some "⚠️"
  else if s = "i" then some "🤕"
  else if s = "s" then some "🟥"
  else if s = "u" then some "❌"
  else none

/-- The `positionName` lookup table (lines 170-175); `none` is a miss
(rendered as `undefined` by the template, not excluded). -/
def positionName (t : Int) : Option String :=
  if t = 1 then some "GKP"
  else if t = 2 then some "DEF"
  else if t = 3 then some "MID"
  else if t = 4 then some "FWD"
  else none

/-- C3 counterexample input: two fixtures of gameweek 7 on two distinct
machine-local days, the later day listed first. -/
def fixLate : Fixture :=
  { id := 1, event := some 7, kickoff_time := 90000000, team_h := 1, team_a := 2 }

def fixEarly : Fixture :=
  { id := 2, event := some 7, kickoff_time := 3600000, team_h := 3, team_a := 4 }

/-- C4 failing input: a kickoff at 23:30 UTC (epoch ms 84600000). -/
def fixLateNight : Fixture :=
  { id := 3, event := some 7, kickoff_time := 84600000, team_h := 1, team_a := 2 }

/-- Neutral example player; the examples below override single fields. -/
def basePlayer : Player :=
  { id := 0, web_name := "Base", team := 1, element_type := 3, status := "a", news := "",
    selected_by_percent := "0", form := "0", transfers_in_event := 0,
    transfers_out_event := 0, cost_change_event := 0 }

/-- A player with 2.5 percent ownership and form 5.0 — passes the form
filter. -/
def formHigh (i : Int) : Player :=
  { basePlayer with id := i, selected_by_percent := "2.5", form := "5.0" }

/-- The spec's boundary example: ownership exactly "2.0". -/
def ownBoundary : Player :=
  { basePlayer with id := 7, selected_by_percent := "2.0", form := "3.0" }

/-- The spec's inclusion example: ownership "2.5", form "3.0". -/
def formIncluded : Player :=
  { basePlayer with id := 8, selected_by_percent := "2.5", form := "3.0" }

/-- Six players that all pass the form filter (the FormLeaders limit is 5). -/
def sixFormPlayers : List Player :=
  [formHigh 1, formHigh 2, formHigh 3, formHigh 4, formHigh 5, formHigh 6]

/-- The structured data `buildHTML` derives from the snapshot (lines 113-160)
before templating: the reference gameweek, the date-grouped fixtures and the
six ranking lists.  This record is everything the template reads; the source
has no diagnostics component of any kind. -/
structure PipelineResult where
  currentGW : Gameweek
  fixturesByDate : List (Int × List Fixture)
  topTransfersIn : List Player
  topTransfersOut : List Player
  formPlayers : List Player
  injuries : List Player
  priceRisers : List Player
  priceFallers : List Player
deriving DecidableEq, Repr

/-- The derivation part of `buildHTML`, with the machine UTC offset `off`
made explicit.  `none` models the crash on `currentGW.id` when the gameweek
list is empty (`getCurrentGameweek` returns `undefined`). -/
def runPipeline (off : Int) (s : Snapshot) : Option PipelineResult :=
  match getCurrentGameweek s.events with
  | none => none
  | some gw =>
    some
      { currentGW := gw
        fixturesByDate := fixturesByDate off s.fixtures gw.id
        topTransfersIn := topTransfersIn s.players
        topTransfersOut := topTransfersOut s.players
        formPlayers := formPlayers s.players
        injuries := injuries s.players
        priceRisers := priceRisers s.players
        priceFallers := priceFallers s.players }

/-- Filler player `i` of the C8 scenario: unique transfer counts, everything
else neutral. -/
def fillerPlayer (i : Int) : Player :=
  { basePlayer with id := i, transfers_in_event := 100 - i, transfers_out_event := 100 - i }

/-- A player whose form field does not parse. -/
def malformedFormPlayer : Player :=
  { basePlayer with id := 6, form := "abc" }

/-- The same player with the form field replaced by a literal zero. -/
def zeroFormPlayer : Player :=
  { basePlayer with id := 6, form := "0" }

def snapMalformed : Snapshot :=
  { players := [fillerPlayer 1, fillerPlayer 2, fillerPlayer 3, fillerPlayer 4,
      fillerPlayer 5, malformedFormPlayer],
    teams := [], events := [gwNext], fixtures := [] }

def snapZero : Snapshot :=
  { players := [fillerPlayer 1, fillerPlayer 2, fillerPlayer 3, fillerPlayer 4,
      fillerPlayer 5, zeroFormPlayer],
    teams := [], events := [gwNext], fixtures := [] }

/-- A player with a status outside the closed set, carrying 5 percent
ownership. -/
def unknownStatusPlayer : Player :=
  { basePlayer with id := 9, status := "x", selected_by_percent := "5.0" }

/-- A player with a position code outside 1-4. -/
def unknownPosPlayer : Player :=
  { basePlayer with id := 10, element_type := 9 }

/-- A heap of JavaScript arrays of element type `α`: one cell per array
object, in allocation order.  This makes the in-place mutation of
`Array.prototype.sort` (and which array object each call targets) explicit,
so that non-mutation of the snapshot is a real statement rather than a
byproduct of a pure embedding. -/
abbrev Heap (α : Type) : Type := List (List α)

/-- Allocate a fresh array object holding `xs`; returns the new heap and the
reference. -/
def halloc {α : Type} (h : Heap α) (xs : List α) : Heap α × Nat :=
  (h ++ [xs], h.length)

/-- Read the array at reference `r`. -/
def hget {α : Type} (h : Heap α) (r : Nat) : List α :=
  (h.get? r).getD []

/-- Overwrite the array at reference `r`. -/
def hset {α : Type} (h : Heap α) (r : Nat) (xs : List α) : Heap α :=
  h.set r xs

/-- In-place `Array.prototype.sort` of the array at reference `r`. -/
def hsort {α : Type} (h : Heap α) (le : α → α → Bool) (r : Nat) : Heap α :=
  hset h r ((hget h r).mergeSort le)

/-- Allocate one fresh array object per list, in order. -/
def hallocMany {α : Type} (h : Heap α) (xss : List (List α)) : Heap α × List Nat :=
  xss.foldl (fun acc xs => (acc.1 ++ [xs], acc.2 ++ [acc.1.length])) (h, [])

/-- In-place sort of each of the arrays at the given references. -/
def hsortMany {α : Type} (h : Heap α) (le : α → α → Bool) (rs : List Nat) : Heap α :=
  rs.foldl (fun h r => hsort h le r) h

/-- `[...players].sort(cmp).slice(0, n)`: allocate a copy of the array at
cell 0, sort the copy in place, read its first `n` entries. -/
def sortedCopyTake (h : Heap Player) (le : Player → Player → Bool) (n : Nat) :
    List Player × Heap Player :=
  let c := halloc h (hget h 0)
  let h2 := hsort c.1 le c.2
  ((hget h2 c.2).take n, h2)

/-- `[...players].filter(pred).sort(cmp).slice(0, n)`: copy cell 0, filter the
copy into a further fresh array, sort that in place. -/
def sortedFilterOfCopyTake (h : Heap Player) (pred : Player → Bool)
    (le : Player → Player → Bool) (n : Nat) : List Player × Heap Player :=
  let c := halloc h (hget h 0)
  let fl := halloc c.1 ((hget c.1 c.2).filter pred)
  let h2 := hsort fl.1 le fl.2
  ((hget h2 fl.2).take n, h2)

/-- `players.filter(pred).sort(cmp).slice(0, n)` (no spread, as in the injury
list): filter cell 0 into a fresh array, sort that in place. -/
def sortedFilterTake (h : Heap Player) (pred : Player → Bool)
    (le : Player → Player → Bool) (n : Nat) : List Player × Heap Player :=
  let fl := halloc h ((hget h 0).filter pred)
  let h2 := hsort fl.1 le fl.2
  ((hget h2 fl.2).take n, h2)

/-- The six ranking computations of `buildHTML` (lines 130-160) over the
players heap (cell 0 is the snapshot's `players` array), in source order:
transfers in, transfers out, form, injuries, price risers, price fallers. -/
def runRankings (h : Heap Player) :
    (List Player × List Player × List Player × List Player × List Player × List Player) ×
      Heap Player :=
  let st1 := sortedCopyTake h tinLE 5
  let st2 := sortedCopyTake st1.2 toutLE 5
  let st3 := sortedFilterOfCopyTake st2.2 formFilter formLE 5
  let st4 := sortedFilterTake st3.2 availFilter ownLE 8
  let st5 := sortedFilterOfCopyTake st4.2 riserFilter riserLE 5
  let st6 := sortedFilterOfCopyTake st5.2 fallerFilter fallerLE 5
  ((st1.1, st2.1, st3.1, st4.1, st5.1, st6.1), st6.2)

/-- The fixture part of `buildHTML` (lines 114-127) over the fixtures heap
(cell 0 is the snapshot's `fixtures` array): filter to the reference
gameweek into a fresh array, build the (fresh) per-day bucket arrays, sort
each bucket in place, and read the grouped result back. -/
def groupAndSortBuckets (off : Int) (gwId : Int) (h : Heap Fixture) :
    List (Int × List Fixture) × Heap Fixture :=
  let f1 := halloc h ((hget h 0).filter (fun f => f.event == some gwId))
  let buckets := groupFixturesByDate off (hget f1.1 f1.2)
  let f2 := hallocMany f1.1 (buckets.map Prod.snd)
  let fh := hsortMany f2.1 kickLE f2.2
  ((buckets.map Prod.fst).zip (f2.2.map (fun r => hget fh r)), fh)

/-- The final heaps of one build run, one per snapshot collection. -/
structure BuildState where
  playersHeap : Heap Player
  teamsHeap : Heap Team
  eventsHeap : Heap Gameweek
  fixturesHeap : Heap Fixture

/-- `buildHTML`'s derivation with JavaScript array objects and in-place sorts
made explicit.  Cell 0 of each heap is the snapshot's own array.  Every
`[...players]` spread and every `.filter(...)` allocates a fresh cell; every
`.sort(...)` mutates exactly the cell it is called on (the spread copies,
filter results, and the per-day fixture buckets — themselves fresh arrays
built by the grouping loop's pushes); `find` only reads.  The first component
is the derived page data, `none` when the selector finds no gameweek (the
JavaScript then crashes on `currentGW.id`). -/
def runBuildHeap (off : Int) (s : Snapshot) : Option PipelineResult × BuildState :=
  let p0 := halloc [] s.players
  let t0 := halloc [] s.teams
  let e0 := halloc [] s.events
  let f0 := halloc [] s.fixtures
  match getCurrentGameweek (hget e0.1 e0.2) with
  | none =>
    (none, { playersHeap := p0.1, teamsHeap := t0.1, eventsHeap := e0.1,
             fixturesHeap := f0.1 })
  | some gw =>
    let fb := groupAndSortBuckets off gw.id f0.1
    let rk := runRankings p0.1
    (some { currentGW := gw, fixturesByDate := fb.1, topTransfersIn := rk.1.1,
            topTransfersOut := rk.1.2.1, formPlayers := rk.1.2.2.1,
            injuries := rk.1.2.2.2.1, priceRisers := rk.1.2.2.2.2.1,
            priceFallers := rk.1.2.2.2.2.2 },
     { playersHeap := rk.2, teamsHeap := t0.1, eventsHeap := e0.1,
       fixturesHeap := fb.2 })

/-- C1: on every non-empty gameweek list the selector returns the first
gameweek with `is_next`; otherwise the first with `is_current`; otherwise the
first unfinished one; otherwise the last gameweek — each earlier rule strictly
taking priority over every later one.  (Under the snapshot assumption the list
is ascending by id and the next/current flags are unique, so "first match" is
"the" flagged gameweek resp. the first unfinished by ascending id.) -/
theorem selector_priority_order (events : List Gameweek) (h : events ≠ []) :
    ∃ g, getCurrentGameweek events = some g ∧ g ∈ events ∧
      (if (events.any fun e => e.is_next) then
        events.find? (fun e => e.is_next) = some g
      else if (events.any fun e => e.is_current) then
        events.find? (fun e => e.is_current) = some g
      else if (events.any fun e => !e.finished) then
        events.find? (fun e => !e.finished) = some g
      else events.getLast? = some g) := by
  unfold getCurrentGameweek
  rcases hn : events.find? (fun e => e.is_next) with _ | gn
  · rcases hc : events.find? (fun e => e.is_current) with _ | gc
    · rcases hu : events.find? (fun e => !e.finished) with _ | gu
      · rw [hn, hc, hu]
        have hl := List.getLast?_eq_getLast events h
        refine ⟨events.getLast h, hl, List.getLast_mem h, ?_⟩
        have han : (events.any fun e => e.is_next) = false := by
          rw [List.any_eq_false]
          exact List.find?_eq_none.mp hn
        have hac : (events.any fun e => e.is_current) = false := by
          rw [List.any_eq_false]
          exact List.find?_eq_none.mp hc
        have hau : (events.any fun e => !e.finished) = false := by
          rw [List.any_eq_false]
          exact List.find?_eq_none.mp hu
        simp [han, hac, hau, hl]
      · rw [hn, hc, hu]
        refine ⟨gu, rfl, List.mem_of_find?_eq_some hu, ?_⟩
        have han : (events.any fun e => e.is_next) = false := by
          rw [List.any_eq_false]
          exact List.find?_eq_none.mp hn
        have hac : (events.any fun e => e.is_current) = false := by
          rw [List.any_eq_false]
          exact List.find?_eq_none.mp hc
        have hau : (events.any fun e => !e.finished) = true := by
          rw [List.any_eq_true]
          refine ⟨gu, List.mem_of_find?_eq_some hu, ?_⟩
          have := List.find?_some hu
          exact this
        simp [han, hac, hau]
    · rw [hn, hc]
      refine ⟨gc, rfl, List.mem_of_find?_eq_some hc, ?_⟩
      have han : (events.any fun e => e.is_next) = false := by
        rw [List.any_eq_false]
        exact List.find?_eq_none.mp hn
      have hac : (events.any fun e => e.is_current) = true := by
        rw [List.any_eq_true]
        refine ⟨gc, List.mem_of_find?_eq_some hc, ?_⟩
        have := List.find?_some hc
        exact this
      simp [han, hac]
  · rw [hn]
    refine ⟨gn, rfl, List.mem_of_find?_eq_some hn, ?_⟩
    have han : (events.any fun e => e.is_next) = true := by
      rw [List.any_eq_true]
      refine ⟨gn, List.mem_of_find?_eq_some hn, ?_⟩
      have := List.find?_some hn
      exact this
    simp [han]

/-- Witness for C1 at the spec's own example `[{id:1,isCurrent},{id:2,isNext}]`:
the selector picks the `is_next` gameweek (id 2) over the current one. -/
theorem selector_priority_order_witness :
    ∃ g, getCurrentGameweek [gwCurrent, gwNext] = some g ∧ g ∈ [gwCurrent, gwNext] ∧
      (if ([gwCurrent, gwNext].any fun e => e.is_next) then
        [gwCurrent, gwNext].find? (fun e => e.is_next) = some g
      else if ([gwCurrent, gwNext].any fun e => e.is_current) then
        [gwCurrent, gwNext].find? (fun e => e.is_current) = some g
      else if ([gwCurrent, gwNext].any fun e => !e.finished) then
        [gwCurrent, gwNext].find? (fun e => !e.finished) = some g
      else [gwCurrent, gwNext].getLast? = some g) :=
  selector_priority_order [gwCurrent, gwNext] (by decide)

/-- C2: the selector comes back empty-handed exactly on the empty gameweek
list (the single failure mode, the one the spec names `EmptyDataSet`; the
JavaScript function returns `undefined` there, which is fatal downstream), and
on every non-empty input it succeeds with a gameweek taken from the input. -/
theorem selector_fails_iff_empty (events : List Gameweek) :
    (getCurrentGameweek events = none ↔ events = []) ∧
    (∀ g, getCurrentGameweek events = some g → g ∈ events) := by
  constructor
  · constructor
    · intro hnone
      by_contra hne
      obtain ⟨g, hg, -, -⟩ := selector_priority_order events hne
      rw [hnone] at hg
      exact Option.noConfusion hg
    · rintro rfl
      rfl
  · intro g hg
    unfold getCurrentGameweek at hg
    rcases hn : events.find? (fun e => e.is_next) with _ | gn
    · rw [hn] at hg
      rcases hc : events.find? (fun e => e.is_current) with _ | gc
      · rw [hc] at hg
        rcases hu : events.find? (fun e => !e.finished) with _ | gu
        · rw [hu] at hg
          exact List.mem_of_mem_getLast? (Option.mem_def.mpr hg)
        · rw [hu] at hg
          cases hg
          exact List.mem_of_find?_eq_some hu
      · rw [hc] at hg
        cases hg
        exact List.mem_of_find?_eq_some hc
    · rw [hn] at hg
      cases hg
      exact List.mem_of_find?_eq_some hn

/-- Witness for C2 (for the implication inside): on the singleton list the
selector succeeds and the result is a member of the input. -/
theorem selector_fails_iff_empty_witness : gwCurrent ∈ [gwCurrent] :=
  (selector_fails_iff_empty [gwCurrent]).2 gwCurrent rfl

theorem keysInOrder_append_singleton (ds : List Int) (d : Int) :
    keysInOrder (ds ++ [d]) =
      if d ∈ keysInOrder ds then keysInOrder ds else keysInOrder ds ++ [d] := by
  simp [keysInOrder, List.foldl_append]

theorem mem_keysInOrder_aux (ds : List Int) (acc : List Int) (d : Int) :
    (d ∈ ds.foldl (fun acc d => if d ∈ acc then acc else acc ++ [d]) acc) ↔
      d ∈ acc ∨ d ∈ ds := by
  induction ds generalizing acc with
  | nil => simp
  | cons a as ih =>
    simp only [List.foldl_cons, ih, List.mem_cons]
    by_cases hd : a ∈ acc
    · simp [hd]
      constructor
      · rintro (h | h)
        · exact Or.inl h
        · exact Or.inr (Or.inr h)
      · rintro (h | h | h)
        · exact Or.inl h
        · exact Or.inl (h ▸ hd)
        · exact Or.inr h
    · simp [hd, List.mem_append]
      tauto

theorem mem_keysInOrder (ds : List Int) (d : Int) :
    d ∈ keysInOrder ds ↔ d ∈ ds := by
  simpa using mem_keysInOrder_aux ds [] d

/-- Closed form of the grouping loop: the buckets are enumerated in order of
first occurrence of their date key, and each bucket holds, in input order,
exactly the fixtures carrying that key. -/
theorem groupFixturesByDate_eq (off : Int) (fs : List Fixture) :
    groupFixturesByDate off fs =
      (keysInOrder (fs.map (fun f => dateKey off f.kickoff_time))).map
        (fun d => (d, fs.filter (fun f => dateKey off f.kickoff_time == d))) := by
  induction fs using List.reverseRecOn with
  | nil => simp [groupFixturesByDate, keysInOrder]
  | append_singleton l f ih =>
    have hstep : groupFixturesByDate off (l ++ [f]) =
        insertFixture off (groupFixturesByDate off l) f := by
      simp [groupFixturesByDate, List.foldl_append]
    rw [hstep, ih]
    set d := dateKey off f.kickoff_time with hd
    set keys := keysInOrder (l.map (fun f => dateKey off f.kickoff_time)) with hkeys
    have hkeys' : keysInOrder ((l ++ [f]).map (fun f => dateKey off f.kickoff_time)) =
        if d ∈ keys then keys else keys ++ [d] := by
      rw [List.map_append]
      simpa using keysInOrder_append_singleton (l.map (fun f => dateKey off f.kickoff_time)) d
    rw [hkeys']
    have hany : ((keys.map (fun d' => (d', l.filter (fun f => dateKey off f.kickoff_time == d')))).any
        (fun p => p.1 == d)) = decide (d ∈ keys) := by
      rw [Bool.eq_iff_iff]
      simp only [List.any_eq_true, List.mem_map, decide_eq_true_eq]
      constructor
      · rintro ⟨p, ⟨x, hx, rfl⟩, hpd⟩
        simp only [beq_iff_eq] at hpd
        exact hpd ▸ hx
      · intro hx
        exact ⟨(d, l.filter (fun f => dateKey off f.kickoff_time == d)), ⟨d, hx, rfl⟩, by simp⟩
    simp only [insertFixture]
    rw [← hd, hany]
    have hfilter_f_nil : ∀ d' : Int, d' ≠ d →
        ([f].filter (fun x => dateKey off x.kickoff_time == d')) = [] := by
      intro d' hdd
      have hb : (dateKey off f.kickoff_time == d') = false := by
        rw [beq_eq_false_iff_ne, ← hd]
        exact fun hc => hdd hc.symm
      simp [List.filter, hb]
    have hfilter_f_one :
        ([f].filter (fun x => dateKey off x.kickoff_time == d)) = [f] := by
      have hb : (dateKey off f.kickoff_time == d) = true := by
        rw [beq_iff_eq, ← hd]
      simp [List.filter, hb]
    by_cases hmem : d ∈ keys
    · rw [if_pos hmem, decide_eq_true hmem, if_pos rfl]
      rw [List.map_map]
      apply List.map_congr_left
      intro d' hd'
      simp only [Function.comp_def]
      by_cases hdd : d' = d
      · subst hdd
        have hbd : (d == d) = true := by simp
        simp only [hbd, if_true]
        rw [List.filter_append, hfilter_f_one]
      · have hbd : (d' == d) = false := by simp [hdd]
        simp only [hbd, Bool.false_eq_true, if_false]
        rw [List.filter_append, hfilter_f_nil d' hdd, List.append_nil]
    · rw [if_neg hmem, decide_eq_false hmem, if_neg (by simp)]
      rw [List.map_append]
      congr 1
      · apply List.map_congr_left
        intro d' hd'
        have hdd : d' ≠ d := fun hc => hmem (hc ▸ hd')
        rw [List.filter_append, hfilter_f_nil d' hdd, List.append_nil]
      · have hnone : (l.filter (fun x => dateKey off x.kickoff_time == d)) = [] := by
          rw [List.filter_eq_nil_iff]
          intro x hx hkey
          apply hmem
          rw [hkeys, mem_keysInOrder]
          rw [beq_iff_eq] at hkey
          exact List.mem_map.mpr ⟨x, hx, hkey⟩
        simp only [List.map_cons, List.map_nil]
        rw [List.filter_append, hnone, List.nil_append, hfilter_f_one]

/-- Stability of the embedded ECMAScript sort, in filter form: for any class of
entries on which the order relation always holds in both directions (e.g. all
entries carrying one fixed sort key), the sorted output lists that class in
exactly the input order. -/
theorem mergeSort_filter_stable {α : Type} (le : α → α → Bool)
    (trans : ∀ a b c, le a b → le b c → le a c)
    (total : ∀ a b, le a b || le b a)
    (p : α → Bool)
    (hp : ∀ a b, p a → p b → le a b)
    (l : List α) :
    (l.mergeSort le).filter p = l.filter p := by
  have hpair : (l.filter p).Pairwise (fun a b => le a b = true) :=
    List.pairwise_of_forall_mem_list
      (fun a ha b hb => hp a b (List.of_mem_filter ha) (List.of_mem_filter hb))
  have h1 : List.Sublist (l.filter p) (l.mergeSort le) :=
    List.sublist_mergeSort trans total hpair (List.filter_sublist l)
  have h2 : (l.filter p).filter p = l.filter p :=
    List.filter_eq_self.mpr (fun a ha => List.of_mem_filter ha)
  have h3 : List.Sublist (l.filter p) ((l.mergeSort le).filter p) := h2 ▸ h1.filter p
  have h4 : ((l.mergeSort le).filter p).length = (l.filter p).length :=
    ((List.mergeSort_perm l le).filter p).length_eq
  exact (h3.eq_of_length h4.symm).symm

/-- C5: each ranking operation returns exactly `min Limit (number of players
matching its filter)` entries — never more than its limit (5,5,5,8,5,5), all
matching players when fewer than the limit match (then the output is a
permutation of the whole matching set), and the empty list — not an error —
when nothing matches; and every output is sorted by its operation's key
(descending transfers in/out, descending parsed form, descending parsed
ownership, descending price rise, ascending price change for the fallers),
so the under-filled case returns to the caller all matching players, in
sorted order. -/
theorem ranking_lengths (players : List Player) :
    ((topTransfersIn players).length = min 5 players.length ∧
     (topTransfersOut players).length = min 5 players.length ∧
     (formPlayers players).length = min 5 (players.countP formFilter) ∧
     (injuries players).length = min 8 (players.countP availFilter) ∧
     (priceRisers players).length = min 5 (players.countP riserFilter) ∧
     (priceFallers players).length = min 5 (players.countP fallerFilter)) ∧
    ((players.length ≤ 5 → (topTransfersIn players).Perm players) ∧
     (players.length ≤ 5 → (topTransfersOut players).Perm players) ∧
     (players.countP formFilter ≤ 5 → (formPlayers players).Perm (players.filter formFilter)) ∧
     (players.countP availFilter ≤ 8 → (injuries players).Perm (players.filter availFilter)) ∧
     (players.countP riserFilter ≤ 5 → (priceRisers players).Perm (players.filter riserFilter)) ∧
     (players.countP fallerFilter ≤ 5 → (priceFallers players).Perm (players.filter fallerFilter))) ∧
    ((topTransfersIn players).Pairwise
        (fun a b => b.transfers_in_event ≤ a.transfers_in_event) ∧
     (topTransfersOut players).Pairwise
        (fun a b => b.transfers_out_event ≤ a.transfers_out_event) ∧
     (formPlayers players).Pairwise (fun a b => parseQ b.form ≤ parseQ a.form) ∧
     (injuries players).Pairwise
        (fun a b => parseQ b.selected_by_percent ≤ parseQ a.selected_by_percent) ∧
     (priceRisers players).Pairwise
        (fun a b => b.cost_change_event ≤ a.cost_change_event) ∧
     (priceFallers players).Pairwise
        (fun a b => a.cost_change_event ≤ b.cost_change_event)) := by
  have hlen : ∀ (le : Player → Player → Bool) (l : List Player) (n : Nat),
      ((l.mergeSort le).take n).length = min n l.length := by
    intro le l n
    rw [List.length_take, List.length_mergeSort]
  have hperm : ∀ (le : Player → Player → Bool) (l : List Player) (n : Nat),
      l.length ≤ n → ((l.mergeSort le).take n).Perm l := by
    intro le l n hn
    rw [List.take_of_length_le (by rw [List.length_mergeSort]; exact hn)]
    exact List.mergeSort_perm l le
  have hsorted : ∀ (le : Player → Player → Bool),
      (∀ a b c, le a b → le b c → le a c) → (∀ a b, le a b || le b a) →
      ∀ (l : List Player) (n : Nat),
        ((l.mergeSort le).take n).Pairwise (fun a b => le a b = true) := by
    intro le htrans htotal l n
    exact (List.sorted_mergeSort htrans htotal l).sublist (List.take_sublist n _)
  refine ⟨⟨?_, ?_, ?_, ?_, ?_, ?_⟩, ⟨?_, ?_, ?_, ?_, ?_, ?_⟩, ⟨?_, ?_, ?_, ?_, ?_, ?_⟩⟩
  · exact hlen tinLE players 5
  · exact hlen toutLE players 5
  · rw [formPlayers, hlen, List.countP_eq_length_filter]
  · rw [injuries, hlen, List.countP_eq_length_filter]
  · rw [priceRisers, hlen, List.countP_eq_length_filter]
  · rw [priceFallers, hlen, List.countP_eq_length_filter]
  · exact fun h => hperm tinLE players 5 h
  · exact fun h => hperm toutLE players 5 h
  · intro h
    rw [List.countP_eq_length_filter] at h
    exact hperm formLE (players.filter formFilter) 5 h
  · intro h
    rw [List.countP_eq_length_filter] at h
    exact hperm ownLE (players.filter availFilter) 8 h
  · intro h
    rw [List.countP_eq_length_filter] at h
    exact hperm riserLE (players.filter riserFilter) 5 h
  · intro h
    rw [List.countP_eq_length_filter] at h
    exact hperm fallerLE (players.filter fallerFilter) 5 h
  · have hs := hsorted tinLE
      (by intro a b c hab hbc
          simp only [tinLE, decide_eq_true_eq] at hab hbc ⊢
          omega)
      (by intro a b
          simp only [tinLE, Bool.or_eq_true, decide_eq_true_eq]
          omega)
      players 5
    apply hs.imp
    intro a b hab
    simp only [tinLE, decide_eq_true_eq] at hab
    omega
  · have hs := hsorted toutLE
      (by intro a b c hab hbc
          simp only [toutLE, decide_eq_true_eq] at hab hbc ⊢
          omega)
      (by intro a b
          simp only [toutLE, Bool.or_eq_true, decide_eq_true_eq]
          omega)
      players 5
    apply hs.imp
    intro a b hab
    simp only [toutLE, decide_eq_true_eq] at hab
    omega
  · have hs := hsorted formLE
      (by intro a b c hab hbc
          simp only [formLE, decide_eq_true_eq] at hab hbc ⊢
          linarith)
      (by intro a b
          simp only [formLE, Bool.or_eq_true, decide_eq_true_eq]
          rcases le_total (parseQ b.form) (parseQ a.form) with h | h
          · exact Or.inl (by linarith)
          · exact Or.inr (by linarith))
      (players.filter formFilter) 5
    apply hs.imp
    intro a b hab
    simp only [formLE, decide_eq_true_eq] at hab
    linarith
  · have hs := hsorted ownLE
      (by intro a b c hab hbc
          simp only [ownLE, decide_eq_true_eq] at hab hbc ⊢
          linarith)
      (by intro a b
          simp only [ownLE, Bool.or_eq_true, decide_eq_true_eq]
          rcases le_total (parseQ b.selected_by_percent) (parseQ a.selected_by_percent)
            with h | h
          · exact Or.inl (by linarith)
          · exact Or.inr (by linarith))
      (players.filter availFilter) 8
    apply hs.imp
    intro a b hab
    simp only [ownLE, decide_eq_true_eq] at hab
    linarith
  · have hs := hsorted riserLE
      (by intro a b c hab hbc
          simp only [riserLE, decide_eq_true_eq] at hab hbc ⊢
          omega)
      (by intro a b
          simp only [riserLE, Bool.or_eq_true, decide_eq_true_eq]
          omega)
      (players.filter riserFilter) 5
    apply hs.imp
    intro a b hab
    simp only [riserLE, decide_eq_true_eq] at hab
    omega
  · have hs := hsorted fallerLE
      (by intro a b c hab hbc
          simp only [fallerLE, decide_eq_true_eq] at hab hbc ⊢
          omega)
      (by intro a b
          simp only [fallerLE, Bool.or_eq_true, decide_eq_true_eq]
          omega)
      (players.filter fallerFilter) 5
    apply hs.imp
    intro a b hab
    simp only [fallerLE, decide_eq_true_eq] at hab
    omega

/-- Witness for C5 on the empty player list: every operation returns the empty
list (length `min Limit 0 = 0`), and the under-filled case degrades to a
(sorted) permutation of the (empty) matching set rather than an error. -/
theorem ranking_lengths_witness :
    (topTransfersIn []).Perm ([] : List Player) ∧ (topTransfersIn []).length = min 5 (List.length ([] : List Player)) :=
  ⟨(ranking_lengths []).2.1.1 (by decide), (ranking_lengths []).1.1⟩

/-- C6: every sort performed by the pipeline — the within-group fixture sort by
kickoff and the six ranking sorts — is stable: the entries carrying any one
fixed sort key appear in the output exactly in their input order (so two
fixtures with identical kickoff, or two players with equal transfer counts,
equal parsed form, equal parsed ownership or equal price change, keep their
relative snapshot order). -/
theorem all_pipeline_sorts_stable :
    (∀ (l : List Fixture) (k : Int),
      ((l.mergeSort kickLE).filter (fun f => f.kickoff_time == k)) =
        l.filter (fun f => f.kickoff_time == k)) ∧
    (∀ (l : List Player) (k : Int),
      ((l.mergeSort tinLE).filter (fun p => p.transfers_in_event == k)) =
        l.filter (fun p => p.transfers_in_event == k)) ∧
    (∀ (l : List Player) (k : Int),
      ((l.mergeSort toutLE).filter (fun p => p.transfers_out_event == k)) =
        l.filter (fun p => p.transfers_out_event == k)) ∧
    (∀ (l : List Player) (k : ℚ),
      ((l.mergeSort formLE).filter (fun p => parseQ p.form == k)) =
        l.filter (fun p => parseQ p.form == k)) ∧
    (∀ (l : List Player) (k : ℚ),
      ((l.mergeSort ownLE).filter (fun p => parseQ p.selected_by_percent == k)) =
        l.filter (fun p => parseQ p.selected_by_percent == k)) ∧
    (∀ (l : List Player) (k : Int),
      ((l.mergeSort riserLE).filter (fun p => p.cost_change_event == k)) =
        l.filter (fun p => p.cost_change_event == k)) ∧
    (∀ (l : List Player) (k : Int),
      ((l.mergeSort fallerLE).filter (fun p => p.cost_change_event == k)) =
        l.filter (fun p => p.cost_change_event == k)) := by
  refine ⟨?_, ?_, ?_, ?_, ?_, ?_, ?_⟩
  · intro l k
    apply mergeSort_filter_stable
    · intro a b c hab hbc
      simp only [kickLE, decide_eq_true_eq] at hab hbc ⊢
      omega
    · intro a b
      simp only [kickLE, Bool.or_eq_true, decide_eq_true_eq]
      omega
    · intro a b ha hb
      rw [beq_iff_eq] at ha hb
      simp only [kickLE, decide_eq_true_eq]
      omega
  · intro l k
    apply mergeSort_filter_stable
    · intro a b c hab hbc
      simp only [tinLE, decide_eq_true_eq] at hab hbc ⊢
      omega
    · intro a b
      simp only [tinLE, Bool.or_eq_true, decide_eq_true_eq]
      omega
    · intro a b ha hb
      rw [beq_iff_eq] at ha hb
      simp only [tinLE, decide_eq_true_eq]
      omega
  · intro l k
    apply mergeSort_filter_stable
    · intro a b c hab hbc
      simp only [toutLE, decide_eq_true_eq] at hab hbc ⊢
      omega
    · intro a b
      simp only [toutLE, Bool.or_eq_true, decide_eq_true_eq]
      omega
    · intro a b ha hb
      rw [beq_iff_eq] at ha hb
      simp only [toutLE, decide_eq_true_eq]
      omega
  · intro l k
    apply mergeSort_filter_stable
    · intro a b c hab hbc
      simp only [formLE, decide_eq_true_eq] at hab hbc ⊢
      linarith
    · intro a b
      simp only [formLE, Bool.or_eq_true, decide_eq_true_eq]
      rcases le_total (parseQ b.form) (parseQ a.form) with h | h
      · exact Or.inl (by linarith)
      · exact Or.inr (by linarith)
    · intro a b ha hb
      rw [beq_iff_eq] at ha hb
      simp only [formLE, decide_eq_true_eq]
      rw [ha, hb]
      simp
  · intro l k
    apply mergeSort_filter_stable
    · intro a b c hab hbc
      simp only [ownLE, decide_eq_true_eq] at hab hbc ⊢
      linarith
    · intro a b
      simp only [ownLE, Bool.or_eq_true, decide_eq_true_eq]
      rcases le_total (parseQ b.selected_by_percent) (parseQ a.selected_by_percent) with h | h
      · exact Or.inl (by linarith)
      · exact Or.inr (by linarith)
    · intro a b ha hb
      rw [beq_iff_eq] at ha hb
      simp only [ownLE, decide_eq_true_eq]
      rw [ha, hb]
      simp
  · intro l k
    apply mergeSort_filter_stable
    · intro a b c hab hbc
      simp only [riserLE, decide_eq_true_eq] at hab hbc ⊢
      omega
    · intro a b
      simp only [riserLE, Bool.or_eq_true, decide_eq_true_eq]
      omega
    · intro a b ha hb
      rw [beq_iff_eq] at ha hb
      simp only [riserLE, decide_eq_true_eq]
      omega
  · intro l k
    apply mergeSort_filter_stable
    · intro a b c hab hbc
      simp only [fallerLE, decide_eq_true_eq] at hab hbc ⊢
      omega
    · intro a b
      simp only [fallerLE, Bool.or_eq_true, decide_eq_true_eq]
      omega
    · intro a b ha hb
      rw [beq_iff_eq] at ha hb
      simp only [fallerLE, decide_eq_true_eq]
      omega

/-- The date keys of the grouper's output do not depend on the in-group sort. -/
theorem map_fst_fixturesByDate (off : Int) (fs : List Fixture) (gwId : Int) :
    (fixturesByDate off fs gwId).map Prod.fst =
      (groupFixturesByDate off (fs.filter (fun f => f.event == some gwId))).map Prod.fst := by
  simp [fixturesByDate, sortGroups, List.map_map, Function.comp_def]

/-- C3 counterexample: with the later calendar day first in the input, the
grouper emits the groups in input (insertion) order `[day 1, day 0]`, which is
not ascending by date key — refuting "the groups are ordered ascending by date
key". -/
theorem grouper_groups_not_ascending :
    (fixturesByDate 0 [fixLate, fixEarly] 7).map Prod.fst = [1, 0] ∧
    ¬ List.Chain' (fun a b : Int => a ≤ b)
        ((fixturesByDate 0 [fixLate, fixEarly] 7).map Prod.fst) := by
  have hmap : (fixturesByDate 0 [fixLate, fixEarly] 7).map Prod.fst = [1, 0] := by
    rw [map_fst_fixturesByDate]
    decide
  refine ⟨hmap, ?_⟩
  intro hch
  rw [hmap] at hch
  rcases List.chain'_cons.mp hch with ⟨hle, -⟩
  omega

/-- C3 (amended): the grouper's output contains exactly the fixtures whose
`event` equals the reference gameweek id (null/absent `event` excluded),
partitioned by calendar-date key; each group carries its date key and is
sorted ascending by kickoff; the groups appear in order of first occurrence of
their date key in the input (JavaScript object insertion order) — not
ascending by date key; an empty selection yields the empty map, not an
error. -/
theorem grouper_characterization (fixtures : List Fixture) (gwId : Int) (off : Int) :
    (fixturesByDate off fixtures gwId =
      (keysInOrder ((fixtures.filter (fun f => f.event == some gwId)).map
          (fun f => dateKey off f.kickoff_time))).map
        (fun d => (d, ((fixtures.filter (fun f => f.event == some gwId)).filter
            (fun f => dateKey off f.kickoff_time == d)).mergeSort kickLE))) ∧
    (∀ f : Fixture,
      (∃ d g, (d, g) ∈ fixturesByDate off fixtures gwId ∧ f ∈ g) ↔
        (f ∈ fixtures ∧ f.event = some gwId)) ∧
    (∀ d g, (d, g) ∈ fixturesByDate off fixtures gwId →
      (∀ f ∈ g, dateKey off f.kickoff_time = d) ∧
      g.Pairwise (fun a b => a.kickoff_time ≤ b.kickoff_time)) ∧
    ((fixtures.filter (fun f => f.event == some gwId)) = [] →
      fixturesByDate off fixtures gwId = []) := by
  have hkickTrans : ∀ a b c : Fixture, kickLE a b → kickLE b c → kickLE a c := by
    intro a b c hab hbc
    simp only [kickLE, decide_eq_true_eq] at hab hbc ⊢
    omega
  have hkickTotal : ∀ a b : Fixture, kickLE a b || kickLE b a := by
    intro a b
    simp only [kickLE, Bool.or_eq_true, decide_eq_true_eq]
    omega
  have hmain : fixturesByDate off fixtures gwId =
      (keysInOrder ((fixtures.filter (fun f => f.event == some gwId)).map
          (fun f => dateKey off f.kickoff_time))).map
        (fun d => (d, ((fixtures.filter (fun f => f.event == some gwId)).filter
            (fun f => dateKey off f.kickoff_time == d)).mergeSort kickLE)) := by
    rw [fixturesByDate, groupFixturesByDate_eq]
    simp [sortGroups, List.map_map, Function.comp_def]
  refine ⟨hmain, ?_, ?_, ?_⟩
  · intro f
    rw [hmain]
    constructor
    · rintro ⟨d, g, hdg, hfg⟩
      rcases List.mem_map.mp hdg with ⟨d', hd', heq⟩
      rcases Prod.mk.injEq .. ▸ heq with ⟨rfl, rfl⟩
      rw [List.mem_mergeSort] at hfg
      have hf := List.mem_filter.mp hfg
      have hf2 := List.mem_filter.mp hf.1
      exact ⟨hf2.1, by simpa using hf2.2⟩
    · rintro ⟨hfin, hev⟩
      have hsel : f ∈ fixtures.filter (fun f => f.event == some gwId) :=
        List.mem_filter.mpr ⟨hfin, by simp [hev]⟩
      refine ⟨dateKey off f.kickoff_time,
        ((fixtures.filter (fun f => f.event == some gwId)).filter
          (fun x => dateKey off x.kickoff_time == dateKey off f.kickoff_time)).mergeSort kickLE,
        ?_, ?_⟩
      · apply List.mem_map.mpr
        refine ⟨dateKey off f.kickoff_time, ?_, rfl⟩
        rw [mem_keysInOrder]
        exact List.mem_map.mpr ⟨f, hsel, rfl⟩
      · rw [List.mem_mergeSort]
        exact List.mem_filter.mpr ⟨hsel, by simp⟩
  · intro d g hdg
    rw [hmain] at hdg
    rcases List.mem_map.mp hdg with ⟨d', hd', heq⟩
    rcases Prod.mk.injEq .. ▸ heq with ⟨rfl, rfl⟩
    constructor
    · intro f hf
      rw [List.mem_mergeSort] at hf
      have := (List.mem_filter.mp hf).2
      simpa using this
    · have hs := List.sorted_mergeSort hkickTrans hkickTotal
        ((fixtures.filter (fun f => f.event == some gwId)).filter
          (fun f => dateKey off f.kickoff_time == d'))
      apply hs.imp
      intro a b hab
      simp only [kickLE, decide_eq_true_eq] at hab
      omega
  · intro hsel
    rw [hmain, hsel]
    simp [keysInOrder]

/-- Witness for C3 (amended), blank-gameweek case: no fixture of gameweek 7
exists, and the grouper returns the empty map rather than failing. -/
theorem grouper_characterization_witness :
    fixturesByDate 0 ([] : List Fixture) 7 = [] :=
  (grouper_characterization [] 7 0).2.2.2 rfl

/-- C4: the date key is computed with the executing machine's UTC offset, so
the same fixture list groups differently on machines in different timezones:
a 23:30 UTC kickoff lands on day 0 on a UTC machine and on day 1 on a UTC+2
machine — the grouping is not machine-timezone independent. -/
theorem grouping_depends_on_machine_timezone :
    dateKey 0 fixLateNight.kickoff_time = 0 ∧
    dateKey 120 fixLateNight.kickoff_time = 1 ∧
    (fixturesByDate 0 [fixLateNight] 7).map Prod.fst = [0] ∧
    (fixturesByDate 120 [fixLateNight] 7).map Prod.fst = [1] ∧
    fixturesByDate 0 [fixLateNight] 7 ≠ fixturesByDate 120 [fixLateNight] 7 := by
  have h0 : (fixturesByDate 0 [fixLateNight] 7).map Prod.fst = [0] := by
    rw [map_fst_fixturesByDate]
    decide
  have h120 : (fixturesByDate 120 [fixLateNight] 7).map Prod.fst = [1] := by
    rw [map_fst_fixturesByDate]
    decide
  refine ⟨by decide, by decide, h0, h120, ?_⟩
  intro heq
  rw [heq, h120] at h0
  exact absurd h0 (by decide)

theorem parseFloat_two_point_five : parseFloat "2.5" = some (5/2) := by
  simp only [parseFloat, show parseDec "2.5" = some (25, 1) from by decide, Option.map_some]
  norm_num

theorem parseFloat_two_point_zero : parseFloat "2.0" = some 2 := by
  simp only [parseFloat, show parseDec "2.0" = some (20, 1) from by decide, Option.map_some]
  norm_num

theorem parseFloat_three_point_zero : parseFloat "3.0" = some 3 := by
  simp only [parseFloat, show parseDec "3.0" = some (30, 1) from by decide, Option.map_some]
  norm_num

theorem parseFloat_five_point_zero : parseFloat "5.0" = some 5 := by
  simp only [parseFloat, show parseDec "5.0" = some (50, 1) from by decide, Option.map_some]
  norm_num

theorem parseFloat_zero_str : parseFloat "0" = some 0 := by
  simp only [parseFloat, show parseDec "0" = some (0, 0) from by decide, Option.map_some]
  norm_num

theorem parseFloat_abc : parseFloat "abc" = none := by
  simp only [parseFloat, show parseDec "abc" = none from by decide]
  rfl

/-- `gtQ` succeeds exactly on a successful parse whose value beats the
threshold. -/
theorem gtQ_eq_true_iff (x : Option ℚ) (q : ℚ) :
    gtQ x q = true ↔ ∃ v, x = some v ∧ q < v := by
  cases x with
  | none => simp [gtQ]
  | some v => simp [gtQ]

theorem formFilter_of_fields (p : Player)
    (hown : p.selected_by_percent = "2.5") (hform : p.form = "5.0") :
    formFilter p = true := by
  simp only [formFilter, hown, hform, parseFloat_two_point_five,
    parseFloat_five_point_zero, gtQ, Bool.and_eq_true, decide_eq_true_eq]
  norm_num

theorem formLE_of_fields (a b : Player) (ha : a.form = "5.0") (hb : b.form = "5.0") :
    formLE a b = true := by
  simp only [formLE, ha, hb, parseQ, parseFloat_five_point_zero, Option.getD_some,
    decide_eq_true_eq]
  norm_num

theorem mem_sixFormPlayers_fields (a : Player) (ha : a ∈ sixFormPlayers) :
    a.selected_by_percent = "2.5" ∧ a.form = "5.0" := by
  simp only [sixFormPlayers, List.mem_cons, List.not_mem_nil, or_false] at ha
  rcases ha with rfl | rfl | rfl | rfl | rfl | rfl <;> exact ⟨rfl, rfl⟩

/-- C7 counterexample: with six players all passing the FormLeaders filter,
the sixth satisfies the predicate yet is absent from the output — the Limit
of 5 truncates, so "FormLeaders includes a player if and only if the
predicate holds" fails in the "if" direction. -/
theorem formLeaders_iff_fails :
    formFilter (formHigh 6) = true ∧
    formPlayers sixFormPlayers =
      [formHigh 1, formHigh 2, formHigh 3, formHigh 4, formHigh 5] ∧
    formHigh 6 ∉ formPlayers sixFormPlayers := by
  have hfilter : sixFormPlayers.filter formFilter = sixFormPlayers := by
    apply List.filter_eq_self.mpr
    intro a ha
    rcases mem_sixFormPlayers_fields a ha with ⟨h1, h2⟩
    exact formFilter_of_fields a h1 h2
  have hsorted : List.Pairwise (fun a b => formLE a b = true) sixFormPlayers :=
    List.pairwise_of_forall_mem_list (fun a ha b hb =>
      formLE_of_fields a b (mem_sixFormPlayers_fields a ha).2
        (mem_sixFormPlayers_fields b hb).2)
  have hms : sixFormPlayers.mergeSort formLE = sixFormPlayers :=
    List.mergeSort_of_sorted hsorted
  have hfp : formPlayers sixFormPlayers =
      [formHigh 1, formHigh 2, formHigh 3, formHigh 4, formHigh 5] := by
    rw [formPlayers, hfilter, hms]
    rfl
  refine ⟨formFilter_of_fields (formHigh 6) rfl rfl, hfp, ?_⟩
  rw [hfp]
  decide

/-- C7 (amended): a player is retained by the FormLeaders filter exactly when
its ownershipPercent parses to a decimal value strictly above 2 and its
formRating parses to a value strictly above 0 (decimal-numeric semantics,
never lexical string order); every output entry passed that filter, and the
output is the filtered set truncated to the 5 best by form — so the iff holds
at the filter stage.  Concretely, ownership "2.5" with form "3.0" passes (and
is returned when alone), while ownership exactly "2.0" never appears. -/
theorem formLeaders_filter_semantics :
    (∀ p : Player, formFilter p = true ↔
      ((∃ q, parseFloat p.selected_by_percent = some q ∧ 2 < q) ∧
       (∃ r, parseFloat p.form = some r ∧ 0 < r))) ∧
    (∀ (players : List Player) (p : Player),
      p ∈ formPlayers players → formFilter p = true) ∧
    formPlayers [formIncluded] = [formIncluded] ∧
    (∀ players : List Player, ownBoundary ∉ formPlayers players) := by
  have hmemfilter : ∀ (players : List Player) (p : Player),
      p ∈ formPlayers players → formFilter p = true := by
    intro players p hp
    rw [formPlayers] at hp
    have h1 := List.mem_of_mem_take hp
    rw [List.mem_mergeSort] at h1
    exact List.of_mem_filter h1
  refine ⟨?_, hmemfilter, ?_, ?_⟩
  · intro p
    rw [formFilter, Bool.and_eq_true, gtQ_eq_true_iff, gtQ_eq_true_iff]
  · have hf : formFilter formIncluded = true := by
      simp only [formFilter, formIncluded, basePlayer, parseFloat_two_point_five,
        parseFloat_three_point_zero, gtQ, Bool.and_eq_true, decide_eq_true_eq]
      norm_num
    rw [formPlayers]
    rw [show ([formIncluded].filter formFilter) = [formIncluded] by simp [hf]]
    rw [List.mergeSort_singleton]
    rfl
  · intro players hmem
    have hf := hmemfilter players ownBoundary hmem
    have : formFilter ownBoundary = false := by
      simp only [formFilter, ownBoundary, basePlayer, parseFloat_two_point_zero,
        parseFloat_three_point_zero, gtQ, Bool.and_eq_true, decide_eq_true_eq]
      norm_num
    rw [hf] at this
    exact Bool.noConfusion this

/-- Witness for C7 (amended) at the spec's example: ownership "2.5" with form
"3.0" passes the filter (2.5 > 2 and 3 > 0, compared as decimals). -/
theorem formLeaders_filter_semantics_witness : formFilter formIncluded = true :=
  (formLeaders_filter_semantics.1 formIncluded).mpr
    ⟨⟨5/2, by rw [show formIncluded.selected_by_percent = "2.5" from rfl,
        parseFloat_two_point_five], by norm_num⟩,
     ⟨3, by rw [show formIncluded.form = "3.0" from rfl, parseFloat_three_point_zero],
        by norm_num⟩⟩

theorem formFilter_own_zero (p : Player) (h : p.selected_by_percent = "0") :
    formFilter p = false := by
  have : gtQ (parseFloat p.selected_by_percent) 2 = false := by
    rw [h, parseFloat_zero_str, gtQ]
    norm_num
  rw [formFilter, this, Bool.false_and]

/-- C8 counterexample: two snapshots that differ only in one player's
formRating — `"abc"` (unparseable) against `"0"` — produce byte-identical
pipeline output.  The malformed occurrence is therefore not reported anywhere
in the output (the result record has no diagnostics component and does not
even distinguish the malformed field from a literal zero), refuting "the
occurrence is reported ... rather than being silently dropped". -/
theorem malformed_field_not_reported :
    snapMalformed ≠ snapZero ∧
    runPipeline 0 snapMalformed = runPipeline 0 snapZero := by
  refine ⟨by decide, ?_⟩
  have hgw1 : getCurrentGameweek snapMalformed.events = some gwNext := by decide
  have hgw2 : getCurrentGameweek snapZero.events = some gwNext := by decide
  have htin : topTransfersIn snapMalformed.players = topTransfersIn snapZero.players := by
    have hA : snapMalformed.players.mergeSort tinLE = snapMalformed.players :=
      List.mergeSort_of_sorted (by decide)
    have hB : snapZero.players.mergeSort tinLE = snapZero.players :=
      List.mergeSort_of_sorted (by decide)
    rw [topTransfersIn, topTransfersIn, hA, hB]
    decide
  have htout : topTransfersOut snapMalformed.players = topTransfersOut snapZero.players := by
    have hA : snapMalformed.players.mergeSort toutLE = snapMalformed.players :=
      List.mergeSort_of_sorted (by decide)
    have hB : snapZero.players.mergeSort toutLE = snapZero.players :=
      List.mergeSort_of_sorted (by decide)
    rw [topTransfersOut, topTransfersOut, hA, hB]
    decide
  have hformA : snapMalformed.players.filter formFilter = [] := by
    rw [List.filter_eq_nil_iff]
    intro a ha
    have hown : a.selected_by_percent = "0" := by
      rcases (by decide :
          ∀ x ∈ snapMalformed.players, x.selected_by_percent = "0") a ha with h
      exact h
    rw [formFilter_own_zero a hown]
    exact Bool.false_ne_true
  have hformB : snapZero.players.filter formFilter = [] := by
    rw [List.filter_eq_nil_iff]
    intro a ha
    have hown : a.selected_by_percent = "0" := by
      rcases (by decide :
          ∀ x ∈ snapZero.players, x.selected_by_percent = "0") a ha with h
      exact h
    rw [formFilter_own_zero a hown]
    exact Bool.false_ne_true
  have hform : formPlayers snapMalformed.players = formPlayers snapZero.players := by
    rw [formPlayers, formPlayers, hformA, hformB]
  have hinj : injuries snapMalformed.players = injuries snapZero.players := by
    rw [injuries, injuries,
      show snapMalformed.players.filter availFilter = [] from by decide,
      show snapZero.players.filter availFilter = [] from by decide]
  have hris : priceRisers snapMalformed.players = priceRisers snapZero.players := by
    rw [priceRisers, priceRisers,
      show snapMalformed.players.filter riserFilter = [] from by decide,
      show snapZero.players.filter riserFilter = [] from by decide]
  have hfal : priceFallers snapMalformed.players = priceFallers snapZero.players := by
    rw [priceFallers, priceFallers,
      show snapMalformed.players.filter fallerFilter = [] from by decide,
      show snapZero.players.filter fallerFilter = [] from by decide]
  rw [runPipeline, runPipeline, hgw1, hgw2]
  rw [show snapMalformed.fixtures = snapZero.fixtures from rfl]
  rw [htin, htout, hform, hinj, hris, hfal]

/-- C8 (amended): a decimal-as-string field that fails to parse acts, for
filtering, exactly like the literal `"0"` (the `NaN` comparison fails every
strict threshold the pipeline uses, just as 0 does), the run continues — but
the occurrence is not reported: the pipeline output has no diagnostics and is
unchanged by the substitution (see the counterexample). -/
theorem malformed_numeric_zero_filtering :
    (∀ p : Player, parseFloat p.form = none →
      formFilter p = formFilter { p with form := "0" }) ∧
    (∀ p : Player, parseFloat p.selected_by_percent = none →
      (formFilter p = formFilter { p with selected_by_percent := "0" } ∧
       availFilter p = availFilter { p with selected_by_percent := "0" })) ∧
    (∀ p : Player, parseFloat p.form = none → gtQ (parseFloat p.form) 0 = false) ∧
    (∀ p : Player, parseFloat p.selected_by_percent = none →
      gtQ (parseFloat p.selected_by_percent) 2 = false ∧
      gtQ (parseFloat p.selected_by_percent) 3 = false) := by
  have hz0 : gtQ (parseFloat "0") 0 = false := by
    rw [parseFloat_zero_str, gtQ]
    norm_num
  have hz2 : gtQ (parseFloat "0") 2 = false := by
    rw [parseFloat_zero_str, gtQ]
    norm_num
  have hz3 : gtQ (parseFloat "0") 3 = false := by
    rw [parseFloat_zero_str, gtQ]
    norm_num
  have hnone : ∀ q : ℚ, gtQ none q = false := fun _ => rfl
  refine ⟨?_, ?_, ?_, ?_⟩
  · intro p hp
    simp only [formFilter, hp, hnone, hz0, Bool.and_false]
  · intro p hp
    refine ⟨?_, ?_⟩
    · simp only [formFilter, hp, hnone, hz2, Bool.false_and]
    · simp only [availFilter, hp, hnone, hz3, Bool.and_false]
  · intro p hp
    rw [hp]
    exact hnone 0
  · intro p hp
    rw [hp]
    exact ⟨hnone 2, hnone 3⟩

/-- Witness for C8 (amended) at the malformed example player: the unparseable
form field filters exactly like a zero form field. -/
theorem malformed_numeric_zero_filtering_witness :
    formFilter malformedFormPlayer = formFilter { malformedFormPlayer with form := "0" } :=
  malformed_numeric_zero_filtering.1 malformedFormPlayer
    (by rw [show malformedFormPlayer.form = "abc" from rfl, parseFloat_abc])

theorem availFilter_unknownStatusPlayer : availFilter unknownStatusPlayer = true := by
  have h5 : gtQ (parseFloat "5.0") 3 = true := by
    rw [parseFloat_five_point_zero, gtQ]
    norm_num
  simp only [availFilter, unknownStatusPlayer, basePlayer, h5, Bool.and_true]
  decide

/-- C9 counterexample: a player with the unknown status "x" is not excluded
from the status-keyed AvailabilityRisks operation — it appears in the output
(any status other than `'a'` passes the filter) while the status lookup table
misses (the template falls back to `'❓'`); likewise an unknown position code
is not excluded from the rankings, its name lookup simply misses. -/
theorem unknown_enum_not_excluded :
    statusEmoji "x" = none ∧
    unknownStatusPlayer ∈ injuries [unknownStatusPlayer] ∧
    positionName 9 = none ∧
    topTransfersIn [unknownPosPlayer] = [unknownPosPlayer] := by
  have hfil : ([unknownStatusPlayer].filter availFilter) = [unknownStatusPlayer] := by
    simp [availFilter_unknownStatusPlayer]
  refine ⟨by decide, ?_, by decide, ?_⟩
  · rw [injuries, hfil, List.mergeSort_singleton]
    decide
  · rw [topTransfersIn, List.mergeSort_singleton]
    rfl

/-- C9 (amended): a record with an unknown status or position code is NOT
excluded and NOT reported: AvailabilityRisks retains a player exactly when
its status differs from `"a"` and its parsed ownership exceeds 3 — whether or
not the status lies in the known set (the unknown status renders via the `'❓'`
fallback); the position lookup simply misses for codes outside 1-4 and no
ranking operation filters on position; the run continues. -/
theorem unknown_enum_behavior :
    (∀ p : Player, availFilter p = true ↔
      (p.status ≠ "a" ∧ ∃ q, parseFloat p.selected_by_percent = some q ∧ 3 < q)) ∧
    (∀ (players : List Player) (p : Player), p ∈ injuries players → p.status ≠ "a") ∧
    injuries [unknownStatusPlayer] = [unknownStatusPlayer] ∧
    topTransfersIn [unknownPosPlayer] = [unknownPosPlayer] ∧
    statusEmoji unknownStatusPlayer.status = none ∧
    positionName unknownPosPlayer.element_type = none := by
  have havail : ∀ p : Player, availFilter p = true ↔
      (p.status ≠ "a" ∧ ∃ q, parseFloat p.selected_by_percent = some q ∧ 3 < q) := by
    intro p
    rw [availFilter, Bool.and_eq_true, gtQ_eq_true_iff, bne_iff_ne]
  refine ⟨havail, ?_, ?_, ?_, by decide, by decide⟩
  · intro players p hp
    rw [injuries] at hp
    have h1 := List.mem_of_mem_take hp
    rw [List.mem_mergeSort] at h1
    exact ((havail p).mp (List.of_mem_filter h1)).1
  · rw [injuries, show ([unknownStatusPlayer].filter availFilter) = [unknownStatusPlayer]
      from by simp [availFilter_unknownStatusPlayer], List.mergeSort_singleton]
    decide
  · rw [topTransfersIn, List.mergeSort_singleton]
    rfl

/-- Witness for C9 (amended): the unknown-status player sits in the injury
list, and the theorem's membership implication applied to it yields that its
status is not `"a"`. -/
theorem unknown_enum_behavior_witness : unknownStatusPlayer.status ≠ "a" :=
  unknown_enum_behavior.2.1 [unknownStatusPlayer] unknownStatusPlayer
    (by rw [unknown_enum_behavior.2.2.1]; exact List.mem_singleton.mpr rfl)

theorem hallocMany_aux {α : Type} :
    ∀ (xss : List (List α)) (h : Heap α) (rs : List Nat),
      (xss.foldl (fun acc xs => (acc.1 ++ [xs], acc.2 ++ [acc.1.length])) (h, rs)) =
        (h ++ xss, rs ++ List.range' h.length xss.length 1) := by
  intro xss
  induction xss with
  | nil => intro h rs; simp
  | cons x xs ih =>
    intro h rs
    simp only [List.foldl_cons]
    rw [ih (h ++ [x]) (rs ++ [h.length])]
    simp [List.range'_succ, List.append_assoc]

theorem hallocMany_eq {α : Type} (h : Heap α) (xss : List (List α)) :
    hallocMany h xss = (h ++ xss, List.range' h.length xss.length 1) := by
  rw [hallocMany, hallocMany_aux xss h []]
  rfl

theorem hget_hset_ne {α : Type} (h : Heap α) (r r' : Nat) (xs : List α) (hne : r ≠ r') :
    hget (hset h r xs) r' = hget h r' := by
  rw [hget, hset, hget, List.get?_set_ne _ _ hne]

theorem hget_hsort_ne {α : Type} (h : Heap α) (le : α → α → Bool) (r r' : Nat)
    (hne : r ≠ r') : hget (hsort h le r) r' = hget h r' := by
  rw [hsort, hget_hset_ne _ _ _ _ hne]

theorem hget_append_lt {α : Type} (h h' : Heap α) (r : Nat) (hr : r < h.length) :
    hget (h ++ h') r = hget h r := by
  rw [hget, hget, List.get?_append hr]

theorem hget_halloc_lt {α : Type} (h : Heap α) (xs : List α) (r : Nat)
    (hr : r < h.length) : hget (halloc h xs).1 r = hget h r :=
  hget_append_lt h [xs] r hr

theorem hget_hsortMany_ne {α : Type} (le : α → α → Bool) :
    ∀ (rs : List Nat) (h : Heap α) (r' : Nat), (∀ r ∈ rs, r ≠ r') →
      hget (hsortMany h le rs) r' = hget h r' := by
  intro rs
  induction rs with
  | nil => intro h r' _; rfl
  | cons r rs ih =>
    intro h r' hne
    have hstep : hsortMany h le (r :: rs) = hsortMany (hsort h le r) le rs := rfl
    rw [hstep, ih (hsort h le r) r' (fun x hx => hne x (List.mem_cons_of_mem r hx)),
      hget_hsort_ne _ _ _ _ (hne r (List.mem_cons_self r rs))]

theorem length_hsort {α : Type} (h : Heap α) (le : α → α → Bool) (r : Nat) :
    (hsort h le r).length = h.length := by
  simp [hsort, hset]

theorem length_halloc {α : Type} (h : Heap α) (xs : List α) :
    (halloc h xs).1.length = h.length + 1 := by
  simp [halloc]

theorem sortedCopyTake_frame (h : Heap Player) (le : Player → Player → Bool)
    (n : Nat) (hpos : 0 < h.length) :
    hget (sortedCopyTake h le n).2 0 = hget h 0 ∧
    0 < (sortedCopyTake h le n).2.length := by
  simp only [sortedCopyTake]
  have hr : (halloc h (hget h 0)).2 = h.length := rfl
  constructor
  · rw [hget_hsort_ne _ _ _ _ (by rw [hr]; omega)]
    exact hget_halloc_lt h _ 0 hpos
  · rw [length_hsort, length_halloc]
    omega

theorem sortedFilterOfCopyTake_frame (h : Heap Player) (pred : Player → Bool)
    (le : Player → Player → Bool) (n : Nat) (hpos : 0 < h.length) :
    hget (sortedFilterOfCopyTake h pred le n).2 0 = hget h 0 ∧
    0 < (sortedFilterOfCopyTake h pred le n).2.length := by
  simp only [sortedFilterOfCopyTake]
  have hc1 : (halloc h (hget h 0)).1.length = h.length + 1 := length_halloc _ _
  have hfl : (halloc (halloc h (hget h 0)).1
      ((hget (halloc h (hget h 0)).1 (halloc h (hget h 0)).2).filter pred)).2 =
        (halloc h (hget h 0)).1.length := rfl
  constructor
  · rw [hget_hsort_ne _ _ _ _ (by rw [hfl, hc1]; omega)]
    rw [hget_halloc_lt _ _ 0 (by rw [hc1]; omega)]
    exact hget_halloc_lt h _ 0 hpos
  · rw [length_hsort, length_halloc, hc1]
    omega

theorem sortedFilterTake_frame (h : Heap Player) (pred : Player → Bool)
    (le : Player → Player → Bool) (n : Nat) (hpos : 0 < h.length) :
    hget (sortedFilterTake h pred le n).2 0 = hget h 0 ∧
    0 < (sortedFilterTake h pred le n).2.length := by
  simp only [sortedFilterTake]
  have hr : (halloc h ((hget h 0).filter pred)).2 = h.length := rfl
  constructor
  · rw [hget_hsort_ne _ _ _ _ (by rw [hr]; omega)]
    exact hget_halloc_lt h _ 0 hpos
  · rw [length_hsort, length_halloc]
    omega

theorem runRankings_frame (h : Heap Player) (hpos : 0 < h.length) :
    hget (runRankings h).2 0 = hget h 0 := by
  simp only [runRankings]
  have s1 := sortedCopyTake_frame h tinLE 5 hpos
  have s2 := sortedCopyTake_frame _ toutLE 5 s1.2
  have s3 := sortedFilterOfCopyTake_frame _ formFilter formLE 5 s2.2
  have s4 := sortedFilterTake_frame _ availFilter ownLE 8 s3.2
  have s5 := sortedFilterOfCopyTake_frame _ riserFilter riserLE 5 s4.2
  have s6 := sortedFilterOfCopyTake_frame _ fallerFilter fallerLE 5 s5.2
  rw [s6.1, s5.1, s4.1, s3.1, s2.1, s1.1]

theorem groupAndSortBuckets_frame (off : Int) (gwId : Int) (h : Heap Fixture)
    (hpos : 0 < h.length) :
    hget (groupAndSortBuckets off gwId h).2 0 = hget h 0 := by
  simp only [groupAndSortBuckets]
  rw [hallocMany_eq]
  have hlen : (halloc h ((hget h 0).filter (fun f => f.event == some gwId))).1.length =
      h.length + 1 := length_halloc _ _
  rw [hget_hsortMany_ne]
  · rw [hget_append_lt _ _ 0 (by rw [hlen]; omega)]
    exact hget_halloc_lt h _ 0 hpos
  · intro r hr
    rw [hlen] at hr
    rcases List.mem_range'.mp hr with ⟨i, hi, rfl⟩
    omega

/-- C10: after the gameweek selector, the fixture grouper and all six ranking
operations have run — with every JavaScript in-place sort applied to the cell
it targets — the snapshot's own arrays (cell 0 of each heap: players, teams,
gameweeks, fixtures) are element-for-element unchanged. -/
theorem snapshot_not_mutated (off : Int) (s : Snapshot) :
    hget (runBuildHeap off s).2.playersHeap 0 = s.players ∧
    hget (runBuildHeap off s).2.teamsHeap 0 = s.teams ∧
    hget (runBuildHeap off s).2.eventsHeap 0 = s.events ∧
    hget (runBuildHeap off s).2.fixturesHeap 0 = s.fixtures := by
  rcases hgw : getCurrentGameweek (hget (halloc [] s.events).1 (halloc [] s.events).2)
    with _ | gw
  · have hp : (runBuildHeap off s).2.playersHeap = (halloc [] s.players).1 := by
      simp only [runBuildHeap, hgw]
    have ht : (runBuildHeap off s).2.teamsHeap = (halloc [] s.teams).1 := by
      simp only [runBuildHeap, hgw]
    have he : (runBuildHeap off s).2.eventsHeap = (halloc [] s.events).1 := by
      simp only [runBuildHeap, hgw]
    have hf : (runBuildHeap off s).2.fixturesHeap = (halloc [] s.fixtures).1 := by
      simp only [runBuildHeap, hgw]
    rw [hp, ht, he, hf]
    exact ⟨rfl, rfl, rfl, rfl⟩
  · have hp : (runBuildHeap off s).2.playersHeap =
        (runRankings (halloc [] s.players).1).2 := by
      simp only [runBuildHeap, hgw]
    have ht : (runBuildHeap off s).2.teamsHeap = (halloc [] s.teams).1 := by
      simp only [runBuildHeap, hgw]
    have he : (runBuildHeap off s).2.eventsHeap = (halloc [] s.events).1 := by
      simp only [runBuildHeap, hgw]
    have hf : (runBuildHeap off s).2.fixturesHeap =
        (groupAndSortBuckets off gw.id (halloc [] s.fixtures).1).2 := by
      simp only [runBuildHeap, hgw]
    rw [hp, ht, he, hf]
    refine ⟨?_, rfl, rfl, ?_⟩
    · rw [runRankings_frame _ (by rw [length_halloc]; omega)]
      rfl
    · rw [groupAndSortBuckets_frame off gw.id _ (by rw [length_halloc]; omega)]
      rfl
